import Mathlib

/-!
# Verification of the monkey_interpreter lexer

Shallow embedding of `src/lexer/lexer.rs` and `src/token/token.rs`.
The input string is modelled as a `List Char`; the Rust code indexes the
input by bytes, so the embedding is faithful for inputs whose characters
are all single-byte (the spec restricts its cursor invariant to exactly
this case).  The Rust field `ch : String` always holds either a one-byte
slice of the input or the sentinel string `"\\"`, so it is modelled as a
single `Char`.

The unbounded `while` loops of `read_identifier`, `read_number` and
`skip_whitespaces` are modelled with explicit fuel `input.length + 2`,
which is proved sufficient: the loop guard is false at the returned state
(see the `post` lemmas), so the fueled loop computes the Rust loop's
fixpoint.
-/

set_option maxRecDepth 4000

namespace Monkey

/-- Token-type constant from token.rs. -/
def ILLEGAL : String := "ILLEGAL"

/-- Token-type constant from token.rs. -/
def EOF : String := "EOF"

/-- Token-type constant from token.rs. -/
def IDENT : String := "IDENT"

/-- Token-type constant from token.rs. -/
def INT : String := "INT"

/-- Token-type constant from token.rs. -/
def ASSIGN : String := "="

/-- Token-type constant from token.rs. -/
def PLUS : String := "+"

/-- Token-type constant from token.rs. -/
def COMMA : String := ","

/-- Token-type constant from token.rs. -/
def SEMICOLON : String := ";"

/-- Token-type constant from token.rs. -/
def LPAREN : String := "("

/-- Token-type constant from token.rs. -/
def RPAREN : String := ")"

/-- Token-type constant from token.rs. -/
def LBRACE : String := "\x7b"

/-- Token-type constant from token.rs. -/
def RBRACE : String := "\x7d"

/-- Token-type constant from token.rs. -/
def FUNCTION : String := "FUNCTION"

/-- Token-type constant from token.rs. -/
def LET : String := "LET"

/-- The `Token` struct of token.rs: a token type and the literal text. -/
structure Token where
  token_type : String
  literal : String
  deriving DecidableEq

/-- `Token::new`. -/
def Token.new (token_type : String) (literal : String) : Token :=
  { token_type := token_type, literal := literal }

/-- The `Lexer` struct of lexer.rs.  `ch` holds the character under the
cursor; the in-band sentinel for end of input is the backslash character. -/
structure Lexer where
  input : List Char
  position : Nat
  read_position : Nat
  ch : Char
  deriving DecidableEq

/-- `Lexer::read_char`: if `read_position` is at or past the end of the
input, load the sentinel; otherwise load the character at `read_position`
(the Rust code's `None` fallthrough, which leaves `ch` unchanged, is
unreachable for in-bounds indices).  Then move `position` to
`read_position` and advance `read_position`. -/
def read_char (l : Lexer) : Lexer :=
  let c : Char :=
    if l.input.length ≤ l.read_position then '\\'
    else
      match l.input[l.read_position]? with
      | some next_input => next_input
      | none => l.ch
  { input := l.input, position := l.read_position,
    read_position := l.read_position + 1, ch := c }

/-- `Lexer::new`: initialize the cursor fields and perform one advance. -/
def Lexer.new (input : List Char) : Lexer :=
  read_char { input := input, position := 0, read_position := 0, ch := '\\' }

/-- The Rust pattern `'a'..='z'` used by `next_token` and `read_identifier`. -/
def is_ascii_lower (c : Char) : Bool :=
  97 ≤ c.toNat && c.toNat ≤ 122

/-- The Rust pattern `'0'..='9'` used by `next_token` and `read_number`. -/
def is_ascii_digit (c : Char) : Bool :=
  48 ≤ c.toNat && c.toNat ≤ 57

/-- Rust's `char::is_whitespace`: the Unicode `White_Space` property,
written out by code point. -/
def rust_is_whitespace (c : Char) : Bool :=
  c.toNat = 32 || c.toNat = 9 || c.toNat = 10 || c.toNat = 13 ||
  c.toNat = 11 || c.toNat = 12 || c.toNat = 133 || c.toNat = 160 ||
  c.toNat = 5760 || (8192 ≤ c.toNat && c.toNat ≤ 8202) ||
  c.toNat = 8232 || c.toNat = 8233 || c.toNat = 8239 || c.toNat = 8287 ||
  c.toNat = 12288

/-- Fueled form of the Rust `while p(ch) { read_char() }` loops. -/
def read_chars_while (p : Char → Bool) : Nat → Lexer → Lexer
  | 0, l => l
  | fuel + 1, l => if p l.ch then read_chars_while p fuel (read_char l) else l

/-- `Lexer::skip_whitespaces`. -/
def skip_whitespaces (l : Lexer) : Lexer :=
  read_chars_while rust_is_whitespace (l.input.length + 2) l

/-- `Lexer::read_identifier`: consume the run of lowercase letters and
return the slice `input[position..new position]` together with the new
state. -/
def read_identifier (l : Lexer) : List Char × Lexer :=
  let l2 := read_chars_while is_ascii_lower (l.input.length + 2) l
  ((l.input.drop l.position).take (l2.position - l.position), l2)

/-- `Lexer::read_number`: consume the run of digits and return the slice
`input[position..new position]` together with the new state. -/
def read_number (l : Lexer) : List Char × Lexer :=
  let l2 := read_chars_while is_ascii_digit (l.input.length + 2) l
  ((l.input.drop l.position).take (l2.position - l.position), l2)

/-- The keyword lookup built inside `next_token`:
`fn ↦ FUNCTION`, `let ↦ LET`, anything else `↦ IDENT`. -/
def lookup_identifier (id : List Char) : String :=
  if id = [ 'f', 'n' ] then FUNCTION
  else if id = [ 'l', 'e', 't' ] then LET
  else IDENT

/-- `Lexer::next_token`, including the `Option` in its return type (the
Rust signature is `Option<Token>`).  The arms appear in the source's match
order; the identifier and number arms return early without the trailing
`read_char`, exactly as the Rust `return` does. -/
def next_token (l0 : Lexer) : Option Token × Lexer :=
  let l := skip_whitespaces l0
  if l.ch = '=' then (some (Token.new ASSIGN (String.mk [ l.ch ])), read_char l)
  else if l.ch = ';' then (some (Token.new SEMICOLON (String.mk [ l.ch ])), read_char l)
  else if l.ch = '(' then (some (Token.new LPAREN (String.mk [ l.ch ])), read_char l)
  else if l.ch = ')' then (some (Token.new RPAREN (String.mk [ l.ch ])), read_char l)
  else if l.ch = ',' then (some (Token.new COMMA (String.mk [ l.ch ])), read_char l)
  else if l.ch = '+' then (some (Token.new PLUS (String.mk [ l.ch ])), read_char l)
  else if l.ch = '\x7b' then (some (Token.new LBRACE (String.mk [ l.ch ])), read_char l)
  else if l.ch = '\x7d' then (some (Token.new RBRACE (String.mk [ l.ch ])), read_char l)
  else if l.ch = '\\' then (some (Token.new EOF (String.mk [ l.ch ])), read_char l)
  else if is_ascii_lower l.ch then
    let r := read_identifier l
    (some (Token.new (lookup_identifier r.1) (String.mk r.1)), r.2)
  else if is_ascii_digit l.ch then
    let r := read_number l
    (some (Token.new INT (String.mk r.1)), r.2)
  else (some (Token.new ILLEGAL (String.mk [ l.ch ])), read_char l)

/-- The `n`-th token produced by the driver loop that calls `next_token`
repeatedly (0-indexed). -/
def nth_token : Nat → Lexer → Option Token
  | 0, l => (next_token l).1
  | n + 1, l => nth_token n (next_token l).2

/-- Canonical form of every reachable lexer state: cursor at `pos`,
`read_position` one ahead, `ch` the character at `pos` (or the sentinel
past the end). -/
def stateAt (input : List Char) (pos : Nat) : Lexer :=
  { input := input, position := pos, read_position := pos + 1,
    ch := input.getD pos '\\' }

/-- The true end-of-input state: the sentinel is loaded and the read
cursor is at or past the end of the input. -/
def Ended (l : Lexer) : Prop :=
  l.ch = '\\' ∧ l.input.length ≤ l.read_position

instance (l : Lexer) : Decidable (Ended l) :=
  inferInstanceAs (Decidable (_ ∧ _))

/-! ## State characterization lemmas -/

lemma stateAt_input (input : List Char) (pos : Nat) : (stateAt input pos).input = input := rfl

lemma stateAt_position (input : List Char) (pos : Nat) : (stateAt input pos).position = pos := rfl

lemma stateAt_read_position (input : List Char) (pos : Nat) :
    (stateAt input pos).read_position = pos + 1 := rfl

lemma getD_eq_getElem {α : Type} (l : List α) (n : Nat) (d : α) (h : n < l.length) :
    l.getD n d = l[n] := by
  simp [List.getD, List.getElem?_eq_getElem h]

lemma getD_eq_default {α : Type} (l : List α) (n : Nat) (d : α) (h : l.length ≤ n) :
    l.getD n d = d := by
  simp [List.getD, List.getElem?_eq_none h]

lemma stateAt_ch_lt {input : List Char} {pos : Nat} (h : pos < input.length) :
    (stateAt input pos).ch = input[pos] :=
  getD_eq_getElem input pos '\\' h

lemma stateAt_ch_ge {input : List Char} {pos : Nat} (h : input.length ≤ pos) :
    (stateAt input pos).ch = '\\' :=
  getD_eq_default input pos '\\' h

lemma read_char_stateAt (input : List Char) (pos : Nat) :
    read_char (stateAt input pos) = stateAt input (pos + 1) := by
  unfold read_char stateAt
  by_cases h : input.length ≤ pos + 1
  · simp only [stateAt_read_position]
    rw [if_pos h, getD_eq_default input (pos + 1) '\\' h]
  · have h2 : pos + 1 < input.length := by omega
    simp only [stateAt_read_position]
    rw [if_neg h, List.getElem?_eq_getElem h2, getD_eq_getElem input (pos + 1) '\\' h2]

lemma new_eq_stateAt (input : List Char) : Lexer.new input = stateAt input 0 := by
  unfold Lexer.new read_char stateAt
  by_cases h : input.length ≤ 0
  · rw [if_pos h, getD_eq_default input 0 '\\' h]
  · have h2 : 0 < input.length := by omega
    rw [if_neg h, List.getElem?_eq_getElem h2, getD_eq_getElem input 0 '\\' h2]

/-! ## Loop lemmas -/

lemma read_chars_while_of_not {p : Char → Bool} {l : Lexer} (h : p l.ch = false) (fuel : Nat) :
    read_chars_while p fuel l = l := by
  cases fuel <;> simp [read_chars_while, h]

lemma read_chars_while_stateAt {p : Char → Bool} (hp : p '\\' = false) :
    ∀ (fuel : Nat) (input : List Char) (pos : Nat),
      input.length + 1 ≤ fuel + pos →
      read_chars_while p fuel (stateAt input pos) =
        stateAt input (pos + ((input.drop pos).takeWhile p).length) := by
  intro fuel
  induction fuel with
  | zero =>
    intro input pos h
    have hdrop : input.drop pos = [] := List.drop_eq_nil_of_le (by omega)
    simp [read_chars_while, hdrop]
  | succ n ih =>
    intro input pos h
    rw [show read_chars_while p (n + 1) (stateAt input pos) =
        if p (stateAt input pos).ch then read_chars_while p n (read_char (stateAt input pos))
        else stateAt input pos from rfl]
    by_cases hlt : pos < input.length
    · have hch : (stateAt input pos).ch = input[pos] := stateAt_ch_lt hlt
      have hdrop : input.drop pos = input[pos] :: input.drop (pos + 1) :=
        List.drop_eq_getElem_cons hlt
      cases hpc : p input[pos] with
      | true =>
        rw [hch, hpc, if_pos rfl, read_char_stateAt,
          ih input (pos + 1) (by omega), hdrop, List.takeWhile_cons, hpc]
        simp only [if_true, List.length_cons]
        congr 1
        omega
      | false =>
        rw [hch, hpc, hdrop, List.takeWhile_cons, hpc]
        simp
    · have hch : (stateAt input pos).ch = '\\' := stateAt_ch_ge (by omega)
      have hdrop : input.drop pos = [] := List.drop_eq_nil_of_le (by omega)
      rw [hch, hp, hdrop]
      simp

lemma takeWhile_getD_false {p : Char → Bool} :
    ∀ (L : List Char), (L.takeWhile p).length < L.length →
      p (L.getD (L.takeWhile p).length '\\') = false := by
  intro L
  induction L with
  | nil => intro h; simp at h
  | cons a L ih =>
    intro h
    cases hpa : p a with
    | false => simp [List.takeWhile_cons, hpa]
    | true =>
      rw [List.takeWhile_cons, hpa] at h ⊢
      simp only [if_true, List.length_cons, List.getD_cons_succ]
      exact ih (by simpa using h)

lemma post_stateAt {p : Char → Bool} (hp : p '\\' = false) (input : List Char) (pos : Nat) :
    p ((stateAt input (pos + ((input.drop pos).takeWhile p).length)).ch) = false := by
  by_cases h : pos + ((input.drop pos).takeWhile p).length < input.length
  · rw [stateAt_ch_lt h]
    have hlen : ((input.drop pos).takeWhile p).length < (input.drop pos).length := by
      rw [List.length_drop]
      omega
    have hidx : input[pos + ((input.drop pos).takeWhile p).length] =
        (input.drop pos).getD ((input.drop pos).takeWhile p).length '\\' := by
      rw [getD_eq_getElem _ _ '\\' hlen, List.getElem_drop]
    rw [hidx]
    exact takeWhile_getD_false (input.drop pos) hlen
  · rw [stateAt_ch_ge (by omega)]
    exact hp

lemma take_takeWhile_length {α : Type} (p : α → Bool) :
    ∀ (L : List α), L.take (L.takeWhile p).length = L.takeWhile p := by
  intro L
  induction L with
  | nil => rfl
  | cons a L ih =>
    cases hpa : p a with
    | false => simp [List.takeWhile_cons, hpa]
    | true => simp [List.takeWhile_cons, hpa, List.take_succ_cons, ih]

lemma skip_whitespaces_stateAt (input : List Char) (pos : Nat) :
    skip_whitespaces (stateAt input pos) =
      stateAt input (pos + ((input.drop pos).takeWhile rust_is_whitespace).length) := by
  unfold skip_whitespaces
  exact read_chars_while_stateAt (by decide) _ input pos (by simp [stateAt_input]; omega)

lemma read_identifier_stateAt (input : List Char) (pos : Nat) :
    read_identifier (stateAt input pos) =
      ((input.drop pos).takeWhile is_ascii_lower,
        stateAt input (pos + ((input.drop pos).takeWhile is_ascii_lower).length)) := by
  unfold read_identifier
  rw [read_chars_while_stateAt (by decide) _ input pos (by simp [stateAt_input]; omega)]
  simp only [stateAt_input, stateAt_position, Nat.add_sub_cancel_left]
  rw [take_takeWhile_length]

lemma read_number_stateAt (input : List Char) (pos : Nat) :
    read_number (stateAt input pos) =
      ((input.drop pos).takeWhile is_ascii_digit,
        stateAt input (pos + ((input.drop pos).takeWhile is_ascii_digit).length)) := by
  unfold read_number
  rw [read_chars_while_stateAt (by decide) _ input pos (by simp [stateAt_input]; omega)]
  simp only [stateAt_input, stateAt_position, Nat.add_sub_cancel_left]
  rw [take_takeWhile_length]

/-! ## Character-class facts -/

lemma ne_of_toNat_ne {c d : Char} (h : c.toNat ≠ d.toNat) : c ≠ d :=
  fun he => h (by rw [he])

lemma is_ascii_lower_iff {c : Char} :
    is_ascii_lower c = true ↔ 97 ≤ c.toNat ∧ c.toNat ≤ 122 := by
  simp [is_ascii_lower]

lemma is_ascii_digit_iff {c : Char} :
    is_ascii_digit c = true ↔ 48 ≤ c.toNat ∧ c.toNat ≤ 57 := by
  simp [is_ascii_digit]

lemma lower_not_ws {c : Char} (h : is_ascii_lower c = true) :
    rust_is_whitespace c = false := by
  rw [is_ascii_lower_iff] at h
  unfold rust_is_whitespace
  simp only [Bool.or_eq_false_iff, Bool.and_eq_false_iff, decide_eq_false_iff_not, not_le]
  omega

lemma digit_not_ws {c : Char} (h : is_ascii_digit c = true) :
    rust_is_whitespace c = false := by
  rw [is_ascii_digit_iff] at h
  unfold rust_is_whitespace
  simp only [Bool.or_eq_false_iff, Bool.and_eq_false_iff, decide_eq_false_iff_not, not_le]
  omega

lemma digit_not_lower {c : Char} (h : is_ascii_digit c = true) :
    is_ascii_lower c = false := by
  rw [is_ascii_digit_iff] at h
  cases hb : is_ascii_lower c with
  | false => rfl
  | true => exact absurd (is_ascii_lower_iff.mp hb) (by omega)

lemma lower_branch_ne {c : Char} (h : is_ascii_lower c = true) :
    c ≠ '=' ∧ c ≠ ';' ∧ c ≠ '(' ∧ c ≠ ')' ∧ c ≠ ',' ∧ c ≠ '+' ∧
      c ≠ '\x7b' ∧ c ≠ '\x7d' ∧ c ≠ '\\' := by
  rw [is_ascii_lower_iff] at h
  exact ⟨ne_of_toNat_ne (show c.toNat ≠ 61 by omega),
    ne_of_toNat_ne (show c.toNat ≠ 59 by omega),
    ne_of_toNat_ne (show c.toNat ≠ 40 by omega),
    ne_of_toNat_ne (show c.toNat ≠ 41 by omega),
    ne_of_toNat_ne (show c.toNat ≠ 44 by omega),
    ne_of_toNat_ne (show c.toNat ≠ 43 by omega),
    ne_of_toNat_ne (show c.toNat ≠ 123 by omega),
    ne_of_toNat_ne (show c.toNat ≠ 125 by omega),
    ne_of_toNat_ne (show c.toNat ≠ 92 by omega)⟩

lemma digit_branch_ne {c : Char} (h : is_ascii_digit c = true) :
    c ≠ '=' ∧ c ≠ ';' ∧ c ≠ '(' ∧ c ≠ ')' ∧ c ≠ ',' ∧ c ≠ '+' ∧
      c ≠ '\x7b' ∧ c ≠ '\x7d' ∧ c ≠ '\\' := by
  rw [is_ascii_digit_iff] at h
  exact ⟨ne_of_toNat_ne (show c.toNat ≠ 61 by omega),
    ne_of_toNat_ne (show c.toNat ≠ 59 by omega),
    ne_of_toNat_ne (show c.toNat ≠ 40 by omega),
    ne_of_toNat_ne (show c.toNat ≠ 41 by omega),
    ne_of_toNat_ne (show c.toNat ≠ 44 by omega),
    ne_of_toNat_ne (show c.toNat ≠ 43 by omega),
    ne_of_toNat_ne (show c.toNat ≠ 123 by omega),
    ne_of_toNat_ne (show c.toNat ≠ 125 by omega),
    ne_of_toNat_ne (show c.toNat ≠ 92 by omega)⟩

lemma takeWhile_length_le {α : Type} (p : α → Bool) :
    ∀ (L : List α), (L.takeWhile p).length ≤ L.length := by
  intro L
  induction L with
  | nil => simp
  | cons a L ih =>
    rw [List.takeWhile_cons]
    cases hpa : p a
    · simp
    · simp only [if_true, List.length_cons]
      omega

lemma mem_takeWhile {α : Type} (p : α → Bool) :
    ∀ (L : List α) (a : α), a ∈ L.takeWhile p → p a = true := by
  intro L
  induction L with
  | nil => intro a h; simp at h
  | cons b L ih =>
    intro a h
    cases hpb : p b with
    | false => rw [List.takeWhile_cons, hpb] at h; simp at h
    | true =>
      rw [List.takeWhile_cons, hpb] at h
      simp only [if_true, List.mem_cons] at h
      rcases h with rfl | h
      · exact hpb
      · exact ih a h

lemma lookup_ne_eof (id : List Char) : lookup_identifier id ≠ EOF := by
  unfold lookup_identifier
  split
  · decide
  · split
    · decide
    · decide

lemma pos_lt_of_ch_ne {input : List Char} {pos : Nat}
    (h : (stateAt input pos).ch ≠ '\\') : pos < input.length := by
  by_contra hc
  exact h (stateAt_ch_ge (by omega))

lemma ch_backslash_ge {input : List Char} {pos : Nat} (hnb : '\\' ∉ input)
    (h : (stateAt input pos).ch = '\\') : input.length ≤ pos := by
  by_contra hc
  push_neg at hc
  rw [stateAt_ch_lt hc] at h
  exact hnb (h ▸ List.getElem_mem hc)

/-! ## Unfolding `next_token` -/

lemma next_token_of_not_ws {l : Lexer} (h : rust_is_whitespace l.ch = false) :
    next_token l =
      if l.ch = '=' then (some (Token.new ASSIGN (String.mk [ l.ch ])), read_char l)
      else if l.ch = ';' then (some (Token.new SEMICOLON (String.mk [ l.ch ])), read_char l)
      else if l.ch = '(' then (some (Token.new LPAREN (String.mk [ l.ch ])), read_char l)
      else if l.ch = ')' then (some (Token.new RPAREN (String.mk [ l.ch ])), read_char l)
      else if l.ch = ',' then (some (Token.new COMMA (String.mk [ l.ch ])), read_char l)
      else if l.ch = '+' then (some (Token.new PLUS (String.mk [ l.ch ])), read_char l)
      else if l.ch = '\x7b' then (some (Token.new LBRACE (String.mk [ l.ch ])), read_char l)
      else if l.ch = '\x7d' then (some (Token.new RBRACE (String.mk [ l.ch ])), read_char l)
      else if l.ch = '\\' then (some (Token.new EOF (String.mk [ l.ch ])), read_char l)
      else if is_ascii_lower l.ch then
        (some (Token.new (lookup_identifier (read_identifier l).1)
          (String.mk (read_identifier l).1)), (read_identifier l).2)
      else if is_ascii_digit l.ch then
        (some (Token.new INT (String.mk (read_number l).1)), (read_number l).2)
      else (some (Token.new ILLEGAL (String.mk [ l.ch ])), read_char l) := by
  unfold next_token
  rw [show skip_whitespaces l = l from read_chars_while_of_not h _]

lemma next_token_skip (input : List Char) (pos : Nat) :
    next_token (stateAt input pos) =
      next_token (stateAt input
        (pos + ((input.drop pos).takeWhile rust_is_whitespace).length)) := by
  conv_lhs => rw [next_token]
  conv_rhs => rw [next_token]
  rw [skip_whitespaces_stateAt,
    show skip_whitespaces (stateAt input
        (pos + ((input.drop pos).takeWhile rust_is_whitespace).length)) =
      stateAt input (pos + ((input.drop pos).takeWhile rust_is_whitespace).length) from
        read_chars_while_of_not (post_stateAt (by decide) input pos) _]

/-! ## Branch lemmas for `next_token` at a reachable state -/

lemma next_token_stateAt_lower {input : List Char} {pos : Nat}
    (h : is_ascii_lower ((stateAt input pos).ch) = true) :
    next_token (stateAt input pos) =
      (some (Token.new (lookup_identifier ((input.drop pos).takeWhile is_ascii_lower))
        (String.mk ((input.drop pos).takeWhile is_ascii_lower))),
        stateAt input (pos + ((input.drop pos).takeWhile is_ascii_lower).length)) := by
  obtain ⟨h1, h2, h3, h4, h5, h6, h7, h8, h9⟩ := lower_branch_ne h
  rw [next_token_of_not_ws (lower_not_ws h), if_neg h1, if_neg h2, if_neg h3, if_neg h4,
    if_neg h5, if_neg h6, if_neg h7, if_neg h8, if_neg h9, if_pos h, read_identifier_stateAt]

lemma next_token_stateAt_digit {input : List Char} {pos : Nat}
    (h : is_ascii_digit ((stateAt input pos).ch) = true) :
    next_token (stateAt input pos) =
      (some (Token.new INT (String.mk ((input.drop pos).takeWhile is_ascii_digit))),
        stateAt input (pos + ((input.drop pos).takeWhile is_ascii_digit).length)) := by
  obtain ⟨h1, h2, h3, h4, h5, h6, h7, h8, h9⟩ := digit_branch_ne h
  rw [next_token_of_not_ws (digit_not_ws h), if_neg h1, if_neg h2, if_neg h3, if_neg h4,
    if_neg h5, if_neg h6, if_neg h7, if_neg h8, if_neg h9,
    if_neg (by simp [digit_not_lower h]), if_pos h, read_number_stateAt]

lemma next_token_stateAt_eof {input : List Char} {pos : Nat}
    (h : (stateAt input pos).ch = '\\') :
    next_token (stateAt input pos) =
      (some (Token.new EOF "\\"), stateAt input (pos + 1)) := by
  have hws : rust_is_whitespace ((stateAt input pos).ch) = false := by rw [h]; decide
  rw [next_token_of_not_ws hws, h, read_char_stateAt]
  simp

lemma next_token_stateAt_illegal {input : List Char} {pos : Nat}
    (h1 : (stateAt input pos).ch ≠ '=') (h2 : (stateAt input pos).ch ≠ ';')
    (h3 : (stateAt input pos).ch ≠ '(') (h4 : (stateAt input pos).ch ≠ ')')
    (h5 : (stateAt input pos).ch ≠ ',') (h6 : (stateAt input pos).ch ≠ '+')
    (h7 : (stateAt input pos).ch ≠ '\x7b') (h8 : (stateAt input pos).ch ≠ '\x7d')
    (h9 : (stateAt input pos).ch ≠ '\\')
    (h10 : is_ascii_lower ((stateAt input pos).ch) = false)
    (h11 : is_ascii_digit ((stateAt input pos).ch) = false)
    (h12 : rust_is_whitespace ((stateAt input pos).ch) = false) :
    next_token (stateAt input pos) =
      (some (Token.new ILLEGAL (String.mk [ (stateAt input pos).ch ])),
        stateAt input (pos + 1)) := by
  rw [next_token_of_not_ws h12, if_neg h1, if_neg h2, if_neg h3, if_neg h4,
    if_neg h5, if_neg h6, if_neg h7, if_neg h8, if_neg h9,
    if_neg (by simp [h10]), if_neg (by simp [h11]), read_char_stateAt]

/-! ## The absorbing end state -/

lemma ended_read_char {l : Lexer} (h : Ended l) : Ended (read_char l) := by
  obtain ⟨h1, h2⟩ := h
  unfold read_char Ended
  constructor
  · simp only [if_pos h2]
  · simp only []
    omega

lemma next_token_ended {l : Lexer} (h : Ended l) :
    next_token l = (some (Token.new EOF "\\"), read_char l) := by
  have hws : rust_is_whitespace l.ch = false := by rw [h.1]; decide
  rw [next_token_of_not_ws hws, h.1]
  simp

lemma nth_token_ended {l : Lexer} (h : Ended l) (n : Nat) :
    nth_token n l = some (Token.new EOF "\\") := by
  induction n generalizing l with
  | zero => rw [nth_token, next_token_ended h]
  | succ n ih =>
    rw [nth_token, next_token_ended h]
    exact ih (ended_read_char h)

lemma stateAt_ended {input : List Char} {pos : Nat} (h : input.length ≤ pos) :
    Ended (stateAt input pos) :=
  ⟨stateAt_ch_ge h, by rw [stateAt_read_position, stateAt_input]; omega⟩

/-! ## One full `next_token` step at a whitespace-free reachable state -/

lemma single_char_case {input : List Char} {pos : Nat} {ty : String} {c0 : Char}
    (hch : (stateAt input pos).ch = c0)
    (heq : next_token (stateAt input pos) =
      (some (Token.new ty (String.mk [ (stateAt input pos).ch ])), stateAt input (pos + 1)))
    (hty : ty ≠ EOF) (hc0 : c0 ≠ '\\')
    (hws : rust_is_whitespace ((stateAt input pos).ch) = false) :
    ∃ t q, next_token (stateAt input pos) = (some t, stateAt input q) ∧
      pos < q ∧
      ((stateAt input pos).ch = '\\' → t = Token.new EOF "\\") ∧
      ((stateAt input pos).ch ≠ '\\' →
        t.token_type ≠ EOF ∧ pos < input.length ∧ q ≤ input.length) ∧
      (∀ c ∈ t.literal.toList, rust_is_whitespace c = false) := by
  have hne : (stateAt input pos).ch ≠ '\\' := fun hh => hc0 (hch.symm.trans hh)
  have hlt : pos < input.length := pos_lt_of_ch_ne hne
  refine ⟨_, pos + 1, heq, by omega, fun hh => absurd hh hne,
    fun _ => ⟨hty, hlt, by omega⟩, ?_⟩
  intro c hc
  rw [show (Token.new ty (String.mk [ (stateAt input pos).ch ])).literal.toList =
    [ (stateAt input pos).ch ] from rfl, List.mem_singleton] at hc
  rw [hc]
  exact hws

lemma next_token_spec (input : List Char) (pos : Nat)
    (hws : rust_is_whitespace ((stateAt input pos).ch) = false) :
    ∃ t q, next_token (stateAt input pos) = (some t, stateAt input q) ∧
      pos < q ∧
      ((stateAt input pos).ch = '\\' → t = Token.new EOF "\\") ∧
      ((stateAt input pos).ch ≠ '\\' →
        t.token_type ≠ EOF ∧ pos < input.length ∧ q ≤ input.length) ∧
      (∀ c ∈ t.literal.toList, rust_is_whitespace c = false) := by
  by_cases h1 : (stateAt input pos).ch = '='
  · exact single_char_case h1
      (by rw [next_token_of_not_ws hws, if_pos h1, read_char_stateAt]) (by decide) (by decide) hws
  by_cases h2 : (stateAt input pos).ch = ';'
  · exact single_char_case h2
      (by rw [next_token_of_not_ws hws, if_neg h1, if_pos h2, read_char_stateAt])
      (by decide) (by decide) hws
  by_cases h3 : (stateAt input pos).ch = '('
  · exact single_char_case h3
      (by rw [next_token_of_not_ws hws, if_neg h1, if_neg h2, if_pos h3, read_char_stateAt])
      (by decide) (by decide) hws
  by_cases h4 : (stateAt input pos).ch = ')'
  · exact single_char_case h4
      (by rw [next_token_of_not_ws hws, if_neg h1, if_neg h2, if_neg h3, if_pos h4,
        read_char_stateAt]) (by decide) (by decide) hws
  by_cases h5 : (stateAt input pos).ch = ','
  · exact single_char_case h5
      (by rw [next_token_of_not_ws hws, if_neg h1, if_neg h2, if_neg h3, if_neg h4, if_pos h5,
        read_char_stateAt]) (by decide) (by decide) hws
  by_cases h6 : (stateAt input pos).ch = '+'
  · exact single_char_case h6
      (by rw [next_token_of_not_ws hws, if_neg h1, if_neg h2, if_neg h3, if_neg h4, if_neg h5,
        if_pos h6, read_char_stateAt]) (by decide) (by decide) hws
  by_cases h7 : (stateAt input pos).ch = '\x7b'
  · exact single_char_case h7
      (by rw [next_token_of_not_ws hws, if_neg h1, if_neg h2, if_neg h3, if_neg h4, if_neg h5,
        if_neg h6, if_pos h7, read_char_stateAt]) (by decide) (by decide) hws
  by_cases h8 : (stateAt input pos).ch = '\x7d'
  · exact single_char_case h8
      (by rw [next_token_of_not_ws hws, if_neg h1, if_neg h2, if_neg h3, if_neg h4, if_neg h5,
        if_neg h6, if_neg h7, if_pos h8, read_char_stateAt]) (by decide) (by decide) hws
  by_cases h9 : (stateAt input pos).ch = '\\'
  · refine ⟨_, pos + 1, next_token_stateAt_eof h9, by omega, fun _ => rfl,
      fun hne => absurd h9 hne, ?_⟩
    intro c hc
    rw [show (Token.new EOF "\\").literal.toList = [ '\\' ] from rfl,
      List.mem_singleton] at hc
    rw [hc]
    decide
  by_cases h10 : is_ascii_lower ((stateAt input pos).ch) = true
  · have hne : (stateAt input pos).ch ≠ '\\' := (lower_branch_ne h10).2.2.2.2.2.2.2.2
    have hlt : pos < input.length := pos_lt_of_ch_ne hne
    have hch : (stateAt input pos).ch = input[pos] := stateAt_ch_lt hlt
    have hdrop : input.drop pos = input[pos] :: input.drop (pos + 1) :=
      List.drop_eq_getElem_cons hlt
    have hpc : is_ascii_lower input[pos] = true := hch ▸ h10
    have hrunpos : 0 < ((input.drop pos).takeWhile is_ascii_lower).length := by
      rw [hdrop, List.takeWhile_cons, hpc]
      simp
    have hrunle : ((input.drop pos).takeWhile is_ascii_lower).length ≤ input.length - pos := by
      have := takeWhile_length_le is_ascii_lower (input.drop pos)
      rwa [List.length_drop] at this
    refine ⟨_, _, next_token_stateAt_lower h10, by omega, fun hh => absurd hh hne,
      fun _ => ⟨lookup_ne_eof _, hlt, by omega⟩, ?_⟩
    intro c hc
    have hmem : c ∈ (input.drop pos).takeWhile is_ascii_lower := by
      rw [show (Token.new (lookup_identifier ((input.drop pos).takeWhile is_ascii_lower))
        (String.mk ((input.drop pos).takeWhile is_ascii_lower))).literal.toList =
          (input.drop pos).takeWhile is_ascii_lower from rfl] at hc
      exact hc
    exact lower_not_ws (mem_takeWhile _ _ _ hmem)
  by_cases h11 : is_ascii_digit ((stateAt input pos).ch) = true
  · have hne : (stateAt input pos).ch ≠ '\\' := (digit_branch_ne h11).2.2.2.2.2.2.2.2
    have hlt : pos < input.length := pos_lt_of_ch_ne hne
    have hch : (stateAt input pos).ch = input[pos] := stateAt_ch_lt hlt
    have hdrop : input.drop pos = input[pos] :: input.drop (pos + 1) :=
      List.drop_eq_getElem_cons hlt
    have hpc : is_ascii_digit input[pos] = true := hch ▸ h11
    have hrunpos : 0 < ((input.drop pos).takeWhile is_ascii_digit).length := by
      rw [hdrop, List.takeWhile_cons, hpc]
      simp
    have hrunle : ((input.drop pos).takeWhile is_ascii_digit).length ≤ input.length - pos := by
      have := takeWhile_length_le is_ascii_digit (input.drop pos)
      rwa [List.length_drop] at this
    refine ⟨_, _, next_token_stateAt_digit h11, by omega, fun hh => absurd hh hne,
      fun _ => ⟨?_, hlt, by omega⟩, ?_⟩
    · exact (show INT ≠ EOF by decide)
    intro c hc
    have hmem : c ∈ (input.drop pos).takeWhile is_ascii_digit := by
      rw [show (Token.new INT
        (String.mk ((input.drop pos).takeWhile is_ascii_digit))).literal.toList =
          (input.drop pos).takeWhile is_ascii_digit from rfl] at hc
      exact hc
    exact digit_not_ws (mem_takeWhile _ _ _ hmem)
  · have h10f : is_ascii_lower ((stateAt input pos).ch) = false := by simpa using h10
    have h11f : is_ascii_digit ((stateAt input pos).ch) = false := by simpa using h11
    exact single_char_case rfl
      (next_token_stateAt_illegal h1 h2 h3 h4 h5 h6 h7 h8 h9 h10f h11f hws)
      (by decide) h9 hws

/-! ## Preservation of the cursor-offset invariant (for C9) -/

lemma read_char_rp (l : Lexer) :
    (read_char l).read_position = (read_char l).position + 1 := rfl

lemma read_chars_while_rp {p : Char → Bool} :
    ∀ (fuel : Nat) (l : Lexer), l.read_position = l.position + 1 →
      (read_chars_while p fuel l).read_position = (read_chars_while p fuel l).position + 1 := by
  intro fuel
  induction fuel with
  | zero => intro l h; exact h
  | succ n ih =>
    intro l h
    rw [show read_chars_while p (n + 1) l =
      if p l.ch then read_chars_while p n (read_char l) else l from rfl]
    cases hc : p l.ch with
    | true => simpa using ih (read_char l) (read_char_rp l)
    | false => simpa using h

lemma next_token_unfold (l0 : Lexer) :
    next_token l0 =
      if (skip_whitespaces l0).ch = '=' then
        (some (Token.new ASSIGN (String.mk [ (skip_whitespaces l0).ch ])),
          read_char (skip_whitespaces l0))
      else if (skip_whitespaces l0).ch = ';' then
        (some (Token.new SEMICOLON (String.mk [ (skip_whitespaces l0).ch ])),
          read_char (skip_whitespaces l0))
      else if (skip_whitespaces l0).ch = '(' then
        (some (Token.new LPAREN (String.mk [ (skip_whitespaces l0).ch ])),
          read_char (skip_whitespaces l0))
      else if (skip_whitespaces l0).ch = ')' then
        (some (Token.new RPAREN (String.mk [ (skip_whitespaces l0).ch ])),
          read_char (skip_whitespaces l0))
      else if (skip_whitespaces l0).ch = ',' then
        (some (Token.new COMMA (String.mk [ (skip_whitespaces l0).ch ])),
          read_char (skip_whitespaces l0))
      else if (skip_whitespaces l0).ch = '+' then
        (some (Token.new PLUS (String.mk [ (skip_whitespaces l0).ch ])),
          read_char (skip_whitespaces l0))
      else if (skip_whitespaces l0).ch = '\x7b' then
        (some (Token.new LBRACE (String.mk [ (skip_whitespaces l0).ch ])),
          read_char (skip_whitespaces l0))
      else if (skip_whitespaces l0).ch = '\x7d' then
        (some (Token.new RBRACE (String.mk [ (skip_whitespaces l0).ch ])),
          read_char (skip_whitespaces l0))
      else if (skip_whitespaces l0).ch = '\\' then
        (some (Token.new EOF (String.mk [ (skip_whitespaces l0).ch ])),
          read_char (skip_whitespaces l0))
      else if is_ascii_lower (skip_whitespaces l0).ch then
        (some (Token.new (lookup_identifier (read_identifier (skip_whitespaces l0)).1)
          (String.mk (read_identifier (skip_whitespaces l0)).1)),
          (read_identifier (skip_whitespaces l0)).2)
      else if is_ascii_digit (skip_whitespaces l0).ch then
        (some (Token.new INT (String.mk (read_number (skip_whitespaces l0)).1)),
          (read_number (skip_whitespaces l0)).2)
      else (some (Token.new ILLEGAL (String.mk [ (skip_whitespaces l0).ch ])),
        read_char (skip_whitespaces l0)) := rfl

lemma next_token_rp {l : Lexer} (h : l.read_position = l.position + 1) :
    (next_token l).2.read_position = (next_token l).2.position + 1 := by
  have hskip : (skip_whitespaces l).read_position = (skip_whitespaces l).position + 1 :=
    read_chars_while_rp _ l h
  rw [next_token_unfold l]
  by_cases c1 : (skip_whitespaces l).ch = '='
  · rw [if_pos c1]; exact read_char_rp _
  rw [if_neg c1]
  by_cases c2 : (skip_whitespaces l).ch = ';'
  · rw [if_pos c2]; exact read_char_rp _
  rw [if_neg c2]
  by_cases c3 : (skip_whitespaces l).ch = '('
  · rw [if_pos c3]; exact read_char_rp _
  rw [if_neg c3]
  by_cases c4 : (skip_whitespaces l).ch = ')'
  · rw [if_pos c4]; exact read_char_rp _
  rw [if_neg c4]
  by_cases c5 : (skip_whitespaces l).ch = ','
  · rw [if_pos c5]; exact read_char_rp _
  rw [if_neg c5]
  by_cases c6 : (skip_whitespaces l).ch = '+'
  · rw [if_pos c6]; exact read_char_rp _
  rw [if_neg c6]
  by_cases c7 : (skip_whitespaces l).ch = '\x7b'
  · rw [if_pos c7]; exact read_char_rp _
  rw [if_neg c7]
  by_cases c8 : (skip_whitespaces l).ch = '\x7d'
  · rw [if_pos c8]; exact read_char_rp _
  rw [if_neg c8]
  by_cases c9 : (skip_whitespaces l).ch = '\\'
  · rw [if_pos c9]; exact read_char_rp _
  rw [if_neg c9]
  by_cases c10 : is_ascii_lower (skip_whitespaces l).ch = true
  · rw [if_pos c10]; exact read_chars_while_rp _ _ hskip
  rw [if_neg c10]
  by_cases c11 : is_ascii_digit (skip_whitespaces l).ch = true
  · rw [if_pos c11]; exact read_chars_while_rp _ _ hskip
  rw [if_neg c11]
  exact read_char_rp _

/-! ## Eventually-EndOfInput for backslash-free inputs (for C5) -/

lemma eventual_eof_aux (input : List Char) (hnb : '\\' ∉ input) :
    ∀ (d pos : Nat), input.length ≤ pos + d →
      ∃ N, (∀ n < N, ∃ t, nth_token n (stateAt input pos) = some t ∧ t.token_type ≠ EOF) ∧
        (∀ n, N ≤ n → nth_token n (stateAt input pos) = some (Token.new EOF "\\")) := by
  intro d
  induction d with
  | zero =>
    intro pos h
    exact ⟨0, fun n hn => absurd hn (by omega),
      fun n _ => nth_token_ended (stateAt_ended (by omega)) n⟩
  | succ d ih =>
    intro pos h
    have hskip := next_token_skip input pos
    have hpost : rust_is_whitespace ((stateAt input
        (pos + ((input.drop pos).takeWhile rust_is_whitespace).length)).ch) = false :=
      post_stateAt (by decide) input pos
    set s := pos + ((input.drop pos).takeWhile rust_is_whitespace).length with hs
    have hps : pos ≤ s := by omega
    obtain ⟨t, q, heq, hlt, heof, hneof, _⟩ := next_token_spec input s hpost
    have hfst : (next_token (stateAt input pos)).1 = some t := by rw [hskip, heq]
    have hsnd : (next_token (stateAt input pos)).2 = stateAt input q := by rw [hskip, heq]
    by_cases hbs : (stateAt input s).ch = '\\'
    · have hsl : input.length ≤ s := ch_backslash_ge hnb hbs
      refine ⟨0, fun n hn => absurd hn (by omega), fun n _ => ?_⟩
      cases n with
      | zero => rw [nth_token, hfst, heof hbs]
      | succ n =>
        rw [nth_token, hsnd]
        exact nth_token_ended (stateAt_ended (by omega)) n
    · obtain ⟨hty, hsl, hql⟩ := hneof hbs
      obtain ⟨N, hpre, hpost2⟩ := ih q (by omega)
      refine ⟨N + 1, ?_, ?_⟩
      · intro n hn
        cases n with
        | zero => exact ⟨t, by rw [nth_token, hfst], hty⟩
        | succ n =>
          rw [nth_token, hsnd]
          exact hpre n (by omega)
      · intro n hn
        cases n with
        | zero => omega
        | succ n =>
          rw [nth_token, hsnd]
          exact hpost2 n (by omega)

lemma next_token_isSome (l : Lexer) : ((next_token l).1).isSome = true := by
  rw [next_token_unfold l]
  by_cases c1 : (skip_whitespaces l).ch = '='
  · rw [if_pos c1]; rfl
  rw [if_neg c1]
  by_cases c2 : (skip_whitespaces l).ch = ';'
  · rw [if_pos c2]; rfl
  rw [if_neg c2]
  by_cases c3 : (skip_whitespaces l).ch = '('
  · rw [if_pos c3]; rfl
  rw [if_neg c3]
  by_cases c4 : (skip_whitespaces l).ch = ')'
  · rw [if_pos c4]; rfl
  rw [if_neg c4]
  by_cases c5 : (skip_whitespaces l).ch = ','
  · rw [if_pos c5]; rfl
  rw [if_neg c5]
  by_cases c6 : (skip_whitespaces l).ch = '+'
  · rw [if_pos c6]; rfl
  rw [if_neg c6]
  by_cases c7 : (skip_whitespaces l).ch = '\x7b'
  · rw [if_pos c7]; rfl
  rw [if_neg c7]
  by_cases c8 : (skip_whitespaces l).ch = '\x7d'
  · rw [if_pos c8]; rfl
  rw [if_neg c8]
  by_cases c9 : (skip_whitespaces l).ch = '\\'
  · rw [if_pos c9]; rfl
  rw [if_neg c9]
  by_cases c10 : is_ascii_lower (skip_whitespaces l).ch = true
  · rw [if_pos c10]; rfl
  rw [if_neg c10]
  by_cases c11 : is_ascii_digit (skip_whitespaces l).ch = true
  · rw [if_pos c11]; rfl
  rw [if_neg c11]
  rfl

/-! ## The claims -/

/-- C1: for the input "=+(){},;", successive calls to next_token return
exactly the token-kind sequence Assign, Plus, LParen, RParen, LBrace,
RBrace, Comma, Semicolon, EndOfInput, with the literals "=", "+", "(",
")", "{", "}", ",", ";", "\" in that order. -/
theorem C1_single_char_sequence :
    nth_token 0 (Lexer.new [ '=', '+', '(', ')', '\x7b', '\x7d', ',', ';' ]) =
      some (Token.new ASSIGN "=") ∧
    nth_token 1 (Lexer.new [ '=', '+', '(', ')', '\x7b', '\x7d', ',', ';' ]) =
      some (Token.new PLUS "+") ∧
    nth_token 2 (Lexer.new [ '=', '+', '(', ')', '\x7b', '\x7d', ',', ';' ]) =
      some (Token.new LPAREN "(") ∧
    nth_token 3 (Lexer.new [ '=', '+', '(', ')', '\x7b', '\x7d', ',', ';' ]) =
      some (Token.new RPAREN ")") ∧
    nth_token 4 (Lexer.new [ '=', '+', '(', ')', '\x7b', '\x7d', ',', ';' ]) =
      some (Token.new LBRACE "\x7b") ∧
    nth_token 5 (Lexer.new [ '=', '+', '(', ')', '\x7b', '\x7d', ',', ';' ]) =
      some (Token.new RBRACE "\x7d") ∧
    nth_token 6 (Lexer.new [ '=', '+', '(', ')', '\x7b', '\x7d', ',', ';' ]) =
      some (Token.new COMMA ",") ∧
    nth_token 7 (Lexer.new [ '=', '+', '(', ')', '\x7b', '\x7d', ',', ';' ]) =
      some (Token.new SEMICOLON ";") ∧
    nth_token 8 (Lexer.new [ '=', '+', '(', ')', '\x7b', '\x7d', ',', ';' ]) =
      some (Token.new EOF "\\") := by
  decide

/-- C2: whenever the character under the cursor is a lowercase ASCII letter,
next_token scans the maximal run of consecutive lowercase letters starting
there (the takeWhile of the remaining input), leaves the cursor on the
first character not in the run with no extra trailing advance, and returns
a token whose literal is exactly that run and whose kind is Function for
"fn", Let for "let", and Identifier otherwise. -/
theorem C2_identifier_scan (input : List Char) (pos : Nat)
    (h : is_ascii_lower ((stateAt input pos).ch) = true) :
    next_token (stateAt input pos) =
      (some (Token.new
        (if (input.drop pos).takeWhile is_ascii_lower = [ 'f', 'n' ] then FUNCTION
         else if (input.drop pos).takeWhile is_ascii_lower = [ 'l', 'e', 't' ] then LET
         else IDENT)
        (String.mk ((input.drop pos).takeWhile is_ascii_lower))),
        stateAt input (pos + ((input.drop pos).takeWhile is_ascii_lower).length)) ∧
    is_ascii_lower ((next_token (stateAt input pos)).2.ch) = false := by
  constructor
  · rw [next_token_stateAt_lower h]
    rfl
  · rw [next_token_stateAt_lower h]
    exact post_stateAt (show is_ascii_lower '\\' = false by decide) input pos

/-- C2 witness: the identifier-scan theorem applied to the input "fn" at
cursor position 0, where the run is the keyword "fn". -/
theorem C2_identifier_scan_witness :
    is_ascii_lower ((stateAt [ 'f', 'n' ] 0).ch) = true ∧
    (next_token (stateAt [ 'f', 'n' ] 0) =
      (some (Token.new FUNCTION "fn"), stateAt [ 'f', 'n' ] 2) ∧
    is_ascii_lower ((next_token (stateAt [ 'f', 'n' ] 0)).2.ch) = false) :=
  ⟨by decide, C2_identifier_scan [ 'f', 'n' ] 0 (by decide)⟩

/-- C3 counterexample: on the input backslash-then-x, the constructed
lexer's current character already holds the sentinel value (a literal
backslash of the input), yet the next advance replaces it by 'x' and the
second token is an identifier, not EndOfInput; so a sentinel-valued current
character is not absorbing for every input, contrary to the claim. -/
theorem C3_sentinel_not_absorbing :
    (Lexer.new [ '\\', 'x' ]).ch = '\\' ∧
    (read_char (Lexer.new [ '\\', 'x' ])).ch = 'x' ∧
    nth_token 1 (Lexer.new [ '\\', 'x' ]) = some (Token.new IDENT "x") ∧
    nth_token 1 (Lexer.new [ '\\', 'x' ]) ≠ some (Token.new EOF "\\") := by
  decide

/-- C3 amended: once the current character holds the sentinel AND the read
cursor is at or past the end of the input (the Ended state), every
subsequent advance keeps the sentinel and every subsequent next_token call
returns the EndOfInput token: the true end state is absorbing.  (A
sentinel-valued current character alone does not suffice, because a literal
backslash in the input also loads the sentinel value.) -/
theorem C3_ended_absorbing (l : Lexer) (h : Ended l) :
    Ended (read_char l) ∧ (read_char l).ch = '\\' ∧
    Ended ((next_token l).2) ∧
    (∀ n, nth_token n l = some (Token.new EOF "\\")) :=
  ⟨ended_read_char h, (ended_read_char h).1,
    by rw [next_token_ended h]; exact ended_read_char h,
    fun n => nth_token_ended h n⟩

/-- C3 witness: the absorbing-end theorem applied to the lexer built on the
empty input, which is Ended immediately after construction. -/
theorem C3_ended_absorbing_witness :
    Ended (Lexer.new ([] : List Char)) ∧
    Ended (read_char (Lexer.new ([] : List Char))) ∧
    nth_token 3 (Lexer.new ([] : List Char)) = some (Token.new EOF "\\") :=
  ⟨by decide, (C3_ended_absorbing (Lexer.new ([] : List Char)) (by decide)).1,
    (C3_ended_absorbing (Lexer.new ([] : List Char)) (by decide)).2.2.2 3⟩

/-- C4 counterexample: the space character satisfies every condition of the
claim (it is none of the eight punctuation characters, not the sentinel,
not a lowercase letter, not a digit), yet next_token on the input " "
returns an EndOfInput token after skipping the space, not an Illegal token
with literal " ".  The claim omits the whitespace exclusion. -/
theorem C4_whitespace_not_illegal :
    (' ' ≠ '=' ∧ ' ' ≠ ';' ∧ ' ' ≠ '(' ∧ ' ' ≠ ')' ∧ ' ' ≠ ',' ∧ ' ' ≠ '+' ∧
      ' ' ≠ '\x7b' ∧ ' ' ≠ '\x7d' ∧ ' ' ≠ '\\' ∧
      is_ascii_lower ' ' = false ∧ is_ascii_digit ' ' = false) ∧
    (Lexer.new [ ' ' ]).ch = ' ' ∧
    nth_token 0 (Lexer.new [ ' ' ]) = some (Token.new EOF "\\") ∧
    nth_token 0 (Lexer.new [ ' ' ]) ≠ some (Token.new ILLEGAL " ") := by
  decide

/-- C4 amended: for every character under the cursor that is not one of the
eight punctuation characters, not the sentinel, not a lowercase letter, not
a digit, and also not whitespace (in the sense of Rust's
char::is_whitespace), next_token returns an Illegal token whose literal is
exactly that single character and the cursor advances by one; in
particular scanning "@" yields Illegal "@" followed by EndOfInput. -/
theorem C4_illegal_passthrough (input : List Char) (pos : Nat)
    (h1 : (stateAt input pos).ch ≠ '=') (h2 : (stateAt input pos).ch ≠ ';')
    (h3 : (stateAt input pos).ch ≠ '(') (h4 : (stateAt input pos).ch ≠ ')')
    (h5 : (stateAt input pos).ch ≠ ',') (h6 : (stateAt input pos).ch ≠ '+')
    (h7 : (stateAt input pos).ch ≠ '\x7b') (h8 : (stateAt input pos).ch ≠ '\x7d')
    (h9 : (stateAt input pos).ch ≠ '\\')
    (h10 : is_ascii_lower ((stateAt input pos).ch) = false)
    (h11 : is_ascii_digit ((stateAt input pos).ch) = false)
    (h12 : rust_is_whitespace ((stateAt input pos).ch) = false) :
    next_token (stateAt input pos) =
      (some (Token.new ILLEGAL (String.mk [ (stateAt input pos).ch ])),
        stateAt input (pos + 1)) ∧
    nth_token 0 (Lexer.new [ '@' ]) = some (Token.new ILLEGAL "@") ∧
    nth_token 1 (Lexer.new [ '@' ]) = some (Token.new EOF "\\") :=
  ⟨next_token_stateAt_illegal h1 h2 h3 h4 h5 h6 h7 h8 h9 h10 h11 h12,
    by decide, by decide⟩

/-- C4 witness: the illegal-passthrough theorem applied to the input "@" at
cursor position 0. -/
theorem C4_illegal_passthrough_witness :
    ((stateAt [ '@' ] 0).ch ≠ '=' ∧ is_ascii_lower ((stateAt [ '@' ] 0).ch) = false ∧
      rust_is_whitespace ((stateAt [ '@' ] 0).ch) = false) ∧
    (next_token (stateAt [ '@' ] 0) =
      (some (Token.new ILLEGAL "@"), stateAt [ '@' ] 1) ∧
    nth_token 0 (Lexer.new [ '@' ]) = some (Token.new ILLEGAL "@") ∧
    nth_token 1 (Lexer.new [ '@' ]) = some (Token.new EOF "\\")) :=
  ⟨⟨by decide, by decide, by decide⟩,
    C4_illegal_passthrough [ '@' ] 0 (by decide) (by decide) (by decide) (by decide)
      (by decide) (by decide) (by decide) (by decide) (by decide) (by decide)
      (by decide) (by decide)⟩

/-- C5 counterexample: on the input backslash-then-z, the first token is
EndOfInput and the second is the identifier "z", so an EndOfInput token
appears strictly before a non-EndOfInput token: the stream is not a finite
non-EndOfInput run followed by an all-EndOfInput tail for every input. -/
theorem C5_backslash_breaks_totality :
    nth_token 0 (Lexer.new [ '\\', 'z' ]) = some (Token.new EOF "\\") ∧
    nth_token 1 (Lexer.new [ '\\', 'z' ]) = some (Token.new IDENT "z") ∧
    (Token.new IDENT "z").token_type ≠ EOF := by
  decide

/-- C5 amended: for every finite input containing no backslash character,
the token stream is a finite run of tokens none of which is EndOfInput,
followed by an infinite tail in which every token is the EndOfInput token
with the fixed sentinel literal. -/
theorem C5_eventual_eof (input : List Char) (hnb : '\\' ∉ input) :
    ∃ N, (∀ n < N, ∃ t, nth_token n (Lexer.new input) = some t ∧ t.token_type ≠ EOF) ∧
      (∀ n, N ≤ n → nth_token n (Lexer.new input) = some (Token.new EOF "\\")) := by
  rw [new_eq_stateAt]
  exact eventual_eof_aux input hnb input.length 0 (by omega)

/-- C5 witness: the eventual-EndOfInput theorem applied to the
backslash-free input "a". -/
theorem C5_eventual_eof_witness :
    ('\\' ∉ [ 'a' ]) ∧
    (∃ N, (∀ n < N, ∃ t, nth_token n (Lexer.new [ 'a' ]) = some t ∧ t.token_type ≠ EOF) ∧
      (∀ n, N ≤ n → nth_token n (Lexer.new [ 'a' ]) = some (Token.new EOF "\\"))) :=
  ⟨by decide, C5_eventual_eof [ 'a' ] (by decide)⟩

/-- C6 counterexample: the vertical-tab character is not space, tab,
newline or carriage return, yet next_token skips it: scanning it followed
by 'a' yields the identifier token "a" first, not an Illegal vertical-tab
token.  The skipped set is Rust's char::is_whitespace, strictly larger
than the four characters the claim names. -/
theorem C6_vertical_tab_skipped :
    ('\x0B' ≠ ' ' ∧ '\x0B' ≠ '\t' ∧ '\x0B' ≠ '\n' ∧ '\x0B' ≠ '\r') ∧
    rust_is_whitespace '\x0B' = true ∧
    nth_token 0 (Lexer.new [ '\x0B', 'a' ]) = some (Token.new IDENT "a") ∧
    nth_token 0 (Lexer.new [ '\x0B', 'a' ]) ≠ some (Token.new ILLEGAL "\x0B") := by
  decide

/-- C6 amended: next_token skips exactly the characters satisfying Rust's
char::is_whitespace (within ASCII: space, tab, newline, carriage return,
vertical tab and form feed) before classification; no emitted token's
literal contains a whitespace character; and scanning " \n\t let " yields
the same token stream as scanning "let". -/
theorem C6_whitespace_transparency :
    (∀ (input : List Char) (pos : Nat),
      skip_whitespaces (stateAt input pos) =
        stateAt input (pos + ((input.drop pos).takeWhile rust_is_whitespace).length)) ∧
    (∀ (input : List Char) (pos : Nat) (t : Token) (l2 : Lexer),
      next_token (stateAt input pos) = (some t, l2) →
      ∀ c ∈ t.literal.toList, rust_is_whitespace c = false) ∧
    (∀ n, nth_token n (Lexer.new (" \n\t let ".toList)) =
      nth_token n (Lexer.new ("let".toList))) := by
  refine ⟨skip_whitespaces_stateAt, ?_, ?_⟩
  · intro input pos t l2 heq c hc
    have hpost := post_stateAt (show rust_is_whitespace '\\' = false by decide) input pos
    obtain ⟨t2, q, heq2, -, -, -, hlit⟩ := next_token_spec input
      (pos + ((input.drop pos).takeWhile rust_is_whitespace).length) hpost
    rw [next_token_skip input pos, heq2] at heq
    injection heq with ha hb
    injection ha with ha
    subst ha
    exact hlit c hc
  · intro n
    match n with
    | 0 => decide
    | 1 => decide
    | n + 2 =>
      have h1 : (next_token (next_token (Lexer.new (" \n\t let ".toList))).2).2 =
          stateAt (" \n\t let ".toList) 9 := by decide
      have h2 : (next_token (next_token (Lexer.new ("let".toList))).2).2 =
          stateAt ("let".toList) 4 := by decide
      show nth_token n (next_token (next_token (Lexer.new (" \n\t let ".toList))).2).2 =
        nth_token n (next_token (next_token (Lexer.new ("let".toList))).2).2
      rw [h1, h2, nth_token_ended (stateAt_ended (by decide)) n,
        nth_token_ended (stateAt_ended (by decide)) n]

/-- C7: whenever the character under the cursor is an ASCII digit,
next_token scans the maximal run of consecutive digits and returns a
single Integer token whose literal is the full run, leaving the cursor on
the first non-digit character; in particular scanning "12345" yields
exactly one Integer token with literal "12345" followed by EndOfInput. -/
theorem C7_number_scan (input : List Char) (pos : Nat)
    (h : is_ascii_digit ((stateAt input pos).ch) = true) :
    (next_token (stateAt input pos) =
      (some (Token.new INT (String.mk ((input.drop pos).takeWhile is_ascii_digit))),
        stateAt input (pos + ((input.drop pos).takeWhile is_ascii_digit).length)) ∧
      is_ascii_digit ((next_token (stateAt input pos)).2.ch) = false) ∧
    nth_token 0 (Lexer.new ("12345".toList)) = some (Token.new INT "12345") ∧
    nth_token 1 (Lexer.new ("12345".toList)) = some (Token.new EOF "\\") := by
  refine ⟨⟨next_token_stateAt_digit h, ?_⟩, by decide, by decide⟩
  rw [next_token_stateAt_digit h]
  exact post_stateAt (show is_ascii_digit '\\' = false by decide) input pos

/-- C7 witness: the number-scan theorem applied to the input "7" at cursor
position 0. -/
theorem C7_number_scan_witness :
    is_ascii_digit ((stateAt [ '7' ] 0).ch) = true ∧
    ((next_token (stateAt [ '7' ] 0) =
      (some (Token.new INT "7"), stateAt [ '7' ] 1) ∧
      is_ascii_digit ((next_token (stateAt [ '7' ] 0)).2.ch) = false) ∧
    nth_token 0 (Lexer.new ("12345".toList)) = some (Token.new INT "12345") ∧
    nth_token 1 (Lexer.new ("12345".toList)) = some (Token.new EOF "\\")) :=
  ⟨by decide, C7_number_scan [ '7' ] 0 (by decide)⟩

/-- C8: next_token always returns exactly one token (the Option is never
None); the advance operation strictly increases read_position; every
reachable state has the canonical stateAt form (construction yields
stateAt input 0 and next_token maps stateAt states to stateAt states);
and all three internal loops exit with their guard false, having reached
either a character outside the class or the end-of-input sentinel. -/
theorem C8_total_some :
    (∀ l : Lexer, ((next_token l).1).isSome = true) ∧
    (∀ l : Lexer, (read_char l).read_position = l.read_position + 1) ∧
    (∀ input : List Char, Lexer.new input = stateAt input 0) ∧
    (∀ (input : List Char) (pos : Nat),
      ∃ q, (next_token (stateAt input pos)).2 = stateAt input q) ∧
    (∀ (input : List Char) (pos : Nat),
      rust_is_whitespace ((skip_whitespaces (stateAt input pos)).ch) = false) ∧
    (∀ (input : List Char) (pos : Nat),
      is_ascii_lower (((read_identifier (stateAt input pos)).2).ch) = false) ∧
    (∀ (input : List Char) (pos : Nat),
      is_ascii_digit (((read_number (stateAt input pos)).2).ch) = false) := by
  refine ⟨next_token_isSome, fun l => rfl, new_eq_stateAt, ?_, ?_, ?_, ?_⟩
  · intro input pos
    have hpost := post_stateAt (show rust_is_whitespace '\\' = false by decide) input pos
    obtain ⟨t, q, heq, -, -, -, -⟩ := next_token_spec input
      (pos + ((input.drop pos).takeWhile rust_is_whitespace).length) hpost
    exact ⟨q, by rw [next_token_skip input pos, heq]⟩
  · intro input pos
    rw [skip_whitespaces_stateAt]
    exact post_stateAt (show rust_is_whitespace '\\' = false by decide) input pos
  · intro input pos
    rw [read_identifier_stateAt]
    exact post_stateAt (show is_ascii_lower '\\' = false by decide) input pos
  · intro input pos
    rw [read_number_stateAt]
    exact post_stateAt (show is_ascii_digit '\\' = false by decide) input pos

/-- C9: read_position = position + 1 holds after construction and after
every next_token call (the input is modelled as a list of single-byte
characters, the case to which the claim restricts itself). -/
theorem C9_cursor_invariant (input : List Char) (l : Lexer)
    (h : l.read_position = l.position + 1) :
    (Lexer.new input).read_position = (Lexer.new input).position + 1 ∧
    (next_token l).2.read_position = (next_token l).2.position + 1 :=
  ⟨rfl, next_token_rp h⟩

/-- C9 witness: the cursor invariant applied to the freshly constructed
lexer on the input "a", which satisfies the offset equation. -/
theorem C9_cursor_invariant_witness :
    (Lexer.new [ 'a' ]).read_position = (Lexer.new [ 'a' ]).position + 1 ∧
    (next_token (Lexer.new [ 'a' ])).2.read_position =
      (next_token (Lexer.new [ 'a' ])).2.position + 1 :=
  C9_cursor_invariant [ 'a' ] (Lexer.new [ 'a' ]) (by decide)

/-- C10: because the end-of-input sentinel is the in-band backslash
character, a backslash inside the input is tokenized as EndOfInput with
literal "\" rather than as Illegal, and scanning continues past it: on
backslash-then-b the first token is EndOfInput and the second is the
identifier "b". -/
theorem C10_backslash_in_input :
    nth_token 0 (Lexer.new [ '\\', 'b' ]) = some (Token.new EOF "\\") ∧
    nth_token 0 (Lexer.new [ '\\', 'b' ]) ≠ some (Token.new ILLEGAL "\\") ∧
    nth_token 1 (Lexer.new [ '\\', 'b' ]) = some (Token.new IDENT "b") := by
  decide

end Monkey
